import Mathlib

/-!
Verification of the Batch Rubric Validator: a shallow embedding of the
client-side analysis orchestrator (`src/components/RubricGrader.tsx`) and the
server-side evaluation endpoint (`src/app/api/analyze-rubric/route.ts`),
with theorems settling the specified behavioral claims.

JavaScript strings are modelled as Lean `String`; the string operations the
code uses (`trim`, `split('\n')`) are defined explicitly below so that their
semantics (the whitespace set, the splitting discipline) are visible.
-/

set_option autoImplicit false

namespace RubricGrader

/-- Whitespace as recognized by JavaScript's `String.prototype.trim`:
ASCII whitespace (space, tab, LF, CR) plus vertical tab, form feed,
no-break space and the BOM.  Only the members relevant to text input
matter here; every use in the code goes through this single predicate. -/
def jsWhitespace (c : Char) : Bool :=
  c.isWhitespace || c = '\x0b' || c = '\x0c' || c = '\u00A0' || c = '\uFEFF'

/-- Drop leading and trailing whitespace from a character list. -/
def trimChars (l : List Char) : List Char :=
  ((l.dropWhile jsWhitespace).reverse.dropWhile jsWhitespace).reverse

/-- JavaScript `s.trim()`. -/
def jsTrim (s : String) : String :=
  ⟨trimChars s.data⟩

/-- Split a character list on a separator character, JavaScript
`split(sep)` style: `"".split` gives one empty piece, and a trailing
separator gives a trailing empty piece. -/
def splitOnChar (sep : Char) : List Char → List (List Char)
  | [] => [[]]
  | c :: rest =>
    if c = sep then
      [] :: splitOnChar sep rest
    else
      match splitOnChar sep rest with
      | [] => [[c]]
      | h :: t => (c :: h) :: t

/-- JavaScript `s.split('\n')`. -/
def jsSplitLines (s : String) : List String :=
  (splitOnChar '\n' s.data).map fun l => ⟨l⟩

/-- The criteria-list construction in `analyzeCriteria`:
`criteria.split('\n').map(c => c.trim()).filter(c => c.length > 0)`. -/
def parseCriteria (criteria : String) : List String :=
  ((jsSplitLines criteria).map jsTrim).filter fun c => c.length > 0

/-- The JSON value universe: what `JSON.parse` produces and
`NextResponse.json` serializes.  Numbers are kept as their source lexemes,
which preserves parse structure without committing to float semantics. -/
inductive Json where
  | null
  | bool (b : Bool)
  | num (lexeme : String)
  | str (s : String)
  | arr (elems : List Json)
  | obj (fields : List (String × Json))
deriving Repr

/-- Property access `j.name` on a parsed JSON value: defined (some) exactly
when `j` is an object with that field; `none` models `undefined`. -/
def Json.getField (j : Json) (name : String) : Option Json :=
  match j with
  | .obj fields => (fields.find? fun f => f.1 = name).map Prod.snd
  | _ => none

/-- JSON insignificant whitespace, skipped between tokens by `JSON.parse`. -/
def skipWs (cs : List Char) : List Char :=
  cs.dropWhile fun c => c = ' ' || c = '\t' || c = '\n' || c = '\r'

/-- Value of a hexadecimal digit, for `\uXXXX` escapes. -/
def hexDigitVal (c : Char) : Option Nat :=
  if c.isDigit then some (c.toNat - 48)
  else if 'a' ≤ c && c ≤ 'f' then some (c.toNat - 87)
  else if 'A' ≤ c && c ≤ 'F' then some (c.toNat - 55)
  else none

/-- Single-character JSON string escapes. -/
def escapeChar (c : Char) : Option Char :=
  if c = '"' then some '"'
  else if c = '\\' then some '\\'
  else if c = '/' then some '/'
  else if c = 'b' then some '\x08'
  else if c = 'f' then some '\x0c'
  else if c = 'n' then some '\n'
  else if c = 'r' then some '\r'
  else if c = 't' then some '\t'
  else none

/-- Body of a JSON string literal, after the opening quote: returns the
decoded characters and the input remaining after the closing quote. -/
def parseStringBody : List Char → Option (List Char × List Char)
  | [] => none
  | '"' :: rest => some ([], rest)
  | '\\' :: 'u' :: a :: b :: c :: d :: rest =>
    match hexDigitVal a, hexDigitVal b, hexDigitVal c, hexDigitVal d with
    | some va, some vb, some vc, some vd =>
      match parseStringBody rest with
      | some (content, r) =>
        some (Char.ofNat (va * 4096 + vb * 256 + vc * 16 + vd) :: content, r)
      | none => none
    | _, _, _, _ => none
  | '\\' :: e :: rest =>
    match escapeChar e with
    | some ec =>
      match parseStringBody rest with
      | some (content, r) => some (ec :: content, r)
      | none => none
    | none => none
  | c :: rest =>
    if c = '\\' then none
    else
      match parseStringBody rest with
      | some (content, r) => some (c :: content, r)
      | none => none

/-- Exponent part of a JSON number lexeme (possibly empty). -/
def parseExpPart (lex : List Char) (cs : List Char) :
    Option (List Char × List Char) :=
  match cs with
  | e :: r =>
    if e = 'e' || e = 'E' then
      let signAndRest :=
        match r with
        | '+' :: r2 => (['+'], r2)
        | '-' :: r2 => (['-'], r2)
        | _ => (([] : List Char), r)
      match signAndRest.2 with
      | d :: _ =>
        if d.isDigit then
          some (lex ++ e :: signAndRest.1 ++ signAndRest.2.takeWhile Char.isDigit,
                signAndRest.2.dropWhile Char.isDigit)
        else none
      | [] => none
    else some (lex, cs)
  | [] => some (lex, cs)

/-- Fraction and exponent parts of a JSON number lexeme. -/
def parseFracExp (lex : List Char) (cs : List Char) :
    Option (List Char × List Char) :=
  match cs with
  | '.' :: r =>
    match r with
    | d :: _ =>
      if d.isDigit then
        parseExpPart (lex ++ '.' :: r.takeWhile Char.isDigit)
          (r.dropWhile Char.isDigit)
      else none
    | [] => none
  | _ => parseExpPart lex cs

/-- A JSON number lexeme in the strict `JSON.parse` grammar
(`-? (0 | [1-9][0-9]*) (. [0-9]+)? ([eE][+-]?[0-9]+)?`). -/
def parseNumber (cs : List Char) : Option (List Char × List Char) :=
  let signAndRest :=
    match cs with
    | '-' :: r => (['-'], r)
    | _ => (([] : List Char), cs)
  match signAndRest.2 with
  | [] => none
  | c :: r =>
    if c = '0' then parseFracExp (signAndRest.1 ++ ['0']) r
    else if c.isDigit then
      parseFracExp (signAndRest.1 ++ c :: r.takeWhile Char.isDigit)
        (r.dropWhile Char.isDigit)
    else none

mutual

/-- A JSON value, by recursion on a fuel bound (any fuel at least twice
the input length is enough, since each level of nesting consumes at
least one character). -/
def parseValue : Nat → List Char → Option (Json × List Char)
  | 0, _ => none
  | fuel + 1, cs =>
    match skipWs cs with
    | 'n' :: 'u' :: 'l' :: 'l' :: rest => some (.null, rest)
    | 't' :: 'r' :: 'u' :: 'e' :: rest => some (.bool true, rest)
    | 'f' :: 'a' :: 'l' :: 's' :: 'e' :: rest => some (.bool false, rest)
    | '"' :: rest =>
      match parseStringBody rest with
      | some (content, rest2) => some (.str ⟨content⟩, rest2)
      | none => none
    | '[' :: rest =>
      match skipWs rest with
      | ']' :: rest2 => some (.arr [], rest2)
      | cs2 =>
        match parseElems fuel cs2 with
        | some (elems, rest2) => some (.arr elems, rest2)
        | none => none
    | '{' :: rest =>
      match skipWs rest with
      | '}' :: rest2 => some (.obj [], rest2)
      | cs2 =>
        match parseMembers fuel cs2 with
        | some (fields, rest2) => some (.obj fields, rest2)
        | none => none
    | cs1 =>
      match parseNumber cs1 with
      | some (lexeme, rest) => some (.num ⟨lexeme⟩, rest)
      | none => none

/-- A comma-separated list of JSON array elements up to the closing
bracket. -/
def parseElems : Nat → List Char → Option (List Json × List Char)
  | 0, _ => none
  | fuel + 1, cs =>
    match parseValue fuel cs with
    | none => none
    | some (v, rest) =>
      match skipWs rest with
      | ',' :: rest2 =>
        match parseElems fuel rest2 with
        | some (vs, rest3) => some (v :: vs, rest3)
        | none => none
      | ']' :: rest2 => some ([v], rest2)
      | _ => none

/-- A comma-separated list of JSON object members up to the closing
brace. -/
def parseMembers : Nat → List Char → Option (List (String × Json) × List Char)
  | 0, _ => none
  | fuel + 1, cs =>
    match skipWs cs with
    | '"' :: rest =>
      match parseStringBody rest with
      | none => none
      | some (key, rest2) =>
        match skipWs rest2 with
        | ':' :: rest3 =>
          match parseValue fuel rest3 with
          | none => none
          | some (v, rest4) =>
            match skipWs rest4 with
            | ',' :: rest5 =>
              match parseMembers fuel rest5 with
              | some (fs, rest6) => some ((⟨key⟩, v) :: fs, rest6)
              | none => none
            | '}' :: rest5 => some ([(⟨key⟩, v)], rest5)
            | _ => none
        | _ => none
    | _ => none

end

/-- JavaScript `JSON.parse`: parse one value, allow trailing whitespace
only; `none` models the thrown `SyntaxError`. -/
def jsonParse (s : String) : Option Json :=
  match parseValue (2 * s.data.length + 4) s.data with
  | some (v, rest) => if skipWs rest = [] then some v else none
  | none => none

/-- The `CriterionAnalysis` record of the client component.  The `result`
field holds the raw JSON the endpoint returned (`response.json()` is not
shape-checked by the client); `error` is the optional `error` property
added in the catch branch. -/
structure CriterionAnalysis where
  criterion : String
  result : Option Json
  expanded : Bool
  loading : Bool
  error : Option String
deriving Repr

/-- JavaScript `Array.prototype.map` with the element index, starting the
count at `k`; every `prev.map((analysis, index) => ...)` in the component
is an instance with `k = 0`. -/
def mapWithIndex {α β : Type} (f : Nat → α → β) : Nat → List α → List β
  | _, [] => []
  | k, a :: as => f k a :: mapWithIndex f (k + 1) as

/-- The bulk initialization in `analyzeCriteria`:
`criteriaList.map(criterion => ({ criterion, result: null, expanded: false, loading: true }))`. -/
def initialAnalyses (criteriaList : List String) : List CriterionAnalysis :=
  criteriaList.map fun criterion =>
    { criterion := criterion, result := none, expanded := false
      loading := true, error := none }

/-- The settled outcome of one `fetch('/api/analyze-rubric', ...)` plus
`response.json()` round trip: either the parsed JSON body of an ok
response, or the message of the error caught by the `catch` branch
(network rejection, the thrown `'Failed to analyze criterion'` on a
non-ok status, or a body-parse rejection). -/
inductive FetchOutcome where
  | success (result : Json)
  | failure (msg : String)
deriving Repr

/-- One outbound request the orchestrator makes: the JSON body
`{ prompt: prompt.trim(), criterion: criteriaList[i] }`. -/
structure NetworkCall where
  prompt : String
  criterion : String
deriving Repr, DecidableEq

/-- The per-index state update of the analysis loop: the functional
updater passed to `setAnalyses` after request `i` settles.  Success sets
`result` and clears `loading`; failure sets `error` and clears `loading`;
every other index is returned unchanged. -/
def applyOutcome (i : Nat) (o : FetchOutcome) (analyses : List CriterionAnalysis) :
    List CriterionAnalysis :=
  mapWithIndex (fun index analysis =>
    if index = i then
      match o with
      | .success r => { analysis with result := some r, loading := false }
      | .failure m => { analysis with error := some m, loading := false }
    else analysis) 0 analyses

/-- The sequential dispatch loop of `analyzeCriteria`: for
`i = 0 .. n-1`, issue the request for `criteriaList[i]`, await it, and
apply the outcome to the shared analyses state; the outcome of request
`i` is supplied by the oracle `fetch i`.  Returns the final analyses
state and the ordered list of requests issued. -/
def runLoop (prompt : String) (fetch : Nat → FetchOutcome) :
    Nat → List String → List CriterionAnalysis →
    List CriterionAnalysis × List NetworkCall
  | _, [], analyses => (analyses, [])
  | i, c :: rest, analyses =>
    let stepped := applyOutcome i (fetch i) analyses
    let r := runLoop prompt fetch (i + 1) rest stepped
    (r.1, ⟨prompt, c⟩ :: r.2)

/-- The component state touched by `analyzeCriteria` and
`toggleExpanded`: the five `useState` cells. -/
structure ClientState where
  prompt : String
  criteria : String
  analyses : List CriterionAnalysis
  loading : Bool
  error : String
deriving Repr

/-- The whole `analyzeCriteria` handler, from button press to the final
`setLoading(false)`, with the per-request outcomes supplied by the
oracle `fetch`.  Returns the component state after the handler finishes
together with the ordered list of network calls it issued. -/
def analyzeCriteria (s : ClientState) (fetch : Nat → FetchOutcome) :
    ClientState × List NetworkCall :=
  if jsTrim s.prompt = "" || jsTrim s.criteria = "" then
    ({ s with error := "Please provide both the original prompt and the rubric criteria" }, [])
  else
    let criteriaList := parseCriteria s.criteria
    if criteriaList.length = 0 then
      ({ s with error := "No valid criteria found" }, [])
    else
      let r := runLoop (jsTrim s.prompt) fetch 0 criteriaList (initialAnalyses criteriaList)
      ({ s with loading := false, error := "", analyses := r.1 }, r.2)

/-- The `toggleExpanded` handler:
`setAnalyses(prev => prev.map((analysis, i) => i === index ? { ...analysis, expanded: !analysis.expanded } : analysis))`. -/
def toggleExpanded (index : Nat) (analyses : List CriterionAnalysis) :
    List CriterionAnalysis :=
  mapWithIndex (fun i analysis =>
    if i = index then { analysis with expanded := !analysis.expanded }
    else analysis) 0 analyses

/-- The fixed system instruction `RUBRIC_INSTRUCTIONS`, verbatim from the
route (braces and apostrophes written as character escapes). -/
def RUBRIC_INSTRUCTIONS : String :=
  "You are a Rubric Criteria Validator tasked with analyzing individual rubric criteria against their original prompts. Your evaluation takes three inputs:

1. ORIGINAL PROMPT: The complete user prompt that the rubric is based on
2. RUBRIC CRITERION: The individual criterion being evaluated
3. RUBRIC GUIDELINES: The standard rules for creating valid criteria (provided below)

Given these inputs, you will:

1. EVALUATE if the criterion follows these rules:
   - Must be binary (can be answered True/False)
   - Must be objective and measurable
   - Must directly relate to the prompt requirements
   - Must specify HOW to verify (not just WHAT)
   - Must not combine multiple requirements
   - Must use exact prompt language where possible
   - Must not add requirements not present in prompt
   - Must focus only on the response being evaluated

2. OUTPUT a JSON response with these fields:
   \x7b
     \"isValid\": boolean,
     \"promptRequirement\": \"string\", // The specific prompt requirement this criterion addresses
     \"errors\": [
       \x7b
         \"rule\": \"string\", // The rule that was violated
         \"explanation\": \"string\" // Clear explanation of the violation
       \x7d
     ],
     \"suggestion\": \"string\", // If invalid, provide a corrected version
     \"reasoning\": \"string\" // Brief explanation of why the suggestion is better
   \x7d

3. VALIDATION RULES:
   a) Binary Check:
      - VALID: \"The response must list Friday under Comedy\"
      - INVALID: \"The response should have good movie descriptions\"

   b) Objectivity Check:
      - VALID: \"The response must provide 2-4 sentences for each movie\"
      - INVALID: \"The response should have interesting descriptions\"

   c) Prompt Alignment:
      - FIRST: Identify the specific requirement in the prompt that this criterion addresses
      - THEN: Verify the criterion doesn\x27t add or modify requirements
      - VALID: Criterion matches exact prompt requirement
      - INVALID: Criterion adds requirements not in prompt

   d) Verification Specificity:
      - VALID: \"The response must have each category name in bold using **Category**\"
      - INVALID: \"The response must be well-formatted\"

   e) Single Requirement:
      - VALID: \"The response must list Scream under Horror\"
      - INVALID: \"The response must list Scream under Horror and include a description\"

4. PROMPT ANALYSIS:
   - First identify all explicit requirements from the prompt
   - Map each criterion to a specific prompt requirement
   - Flag any criterion that can\x27t be mapped to a prompt requirement
   - Consider implicit requirements only if they are necessary for fulfilling explicit requirements

Example:

PROMPT:
\"Classify these movies into categories: Horror, Comedy, Action. Each category should be in bold with bullet points.\"

CRITERION:
\"The response should be well-organized and clear\"

OUTPUT:
\x7b
  \"isValid\": false,
  \"promptRequirement\": \"Each category should be in bold with bullet points\",
  \"errors\": [
    \x7b
      \"rule\": \"objectivity\",
      \"explanation\": \"Terms \x27well-organized\x27 and \x27clear\x27 are subjective and cannot be verified programmatically\"
    \x7d,
    \x7b
      \"rule\": \"verification_specificity\",
      \"explanation\": \"Criterion doesn\x27t specify how to verify organization and clarity\"
    \x7d
  ],
  \"suggestion\": \"The response must use bold headers for categories (**Category**) with bulleted lists (-) underneath each category\",
  \"reasoning\": \"The suggested version directly addresses the prompt\x27s formatting requirement with specific, verifiable formatting instructions\"
\x7d

5. USAGE NOTES:
   - Always start by identifying the relevant prompt requirement
   - Ensure criterion language matches prompt language where possible
   - Don\x27t validate criteria in isolation - always check against prompt
   - Flag any criterion that can\x27t be traced to a prompt requirement
   - Consider the full context when suggesting improvements"

/-- The user message content sent to the provider, with the literal
prompt and criterion interpolated. -/
def userContent (prompt criterion : String) : String :=
  "Evaluate this rubric criterion against its prompt:\n\nORIGINAL PROMPT:\n\"" ++
    prompt ++
    "\"\n\nRUBRIC CRITERION:\n\"" ++
    criterion ++
    "\"\n\nRespond ONLY with a JSON object following the exact format specified in the instructions."

/-- One element of `data.content` in the provider reply, with its
optional `text` payload field. -/
structure AnthropicBlock where
  text : Option String
deriving Repr

/-- The settled behavior of the provider round trip as the route
observes it: the `fetch` may reject, the reply may carry a non-success
status (with the body text read by `response.text()`), the reply body
may fail to parse as JSON, or it parses and carries an optional
`content` array. -/
inductive Upstream where
  | fetchError (msg : String)
  | httpError (status : Nat) (errorText : String)
  | jsonError (msg : String)
  | success (content : Option (List AnthropicBlock))
deriving Repr

/-- The result of `await request.json()` on the incoming request:
either the parse rejected (caught by the outer catch), or the
destructured `prompt` and `criterion` fields, each possibly absent. -/
inductive RequestBody where
  | malformed (errMsg : String)
  | fields (promptField criterionField : Option String)
deriving Repr

/-- JavaScript falsiness of an optional string field (`undefined` and
the empty string are falsy). -/
def strFalsy : Option String → Bool
  | none => true
  | some s => s = ""

/-- The request the route sends to the provider message endpoint. -/
structure AnthropicCall where
  apiKey : String
  model : String
  maxTokens : Nat
  system : String
  user : String
deriving Repr

/-- The summary record the route posts to the form-collection
endpoint: the raw inputs, three fields read off the parsed evaluation
(absent when the evaluation lacks them), and a timestamp. -/
structure FormspreeRecord where
  prompt : String
  criterion : String
  isValid : Option Json
  promptRequirement : Option Json
  errors : Option Json
  timestamp : String
deriving Repr

/-- An outbound request made by the route. -/
inductive OutboundCall where
  | anthropic (call : AnthropicCall)
  | formspree (record : FormspreeRecord)
deriving Repr

/-- An HTTP response produced by `NextResponse.json`. -/
structure ApiResponse where
  status : Nat
  body : Json
deriving Repr

/-- The `\x7b message: m \x7d` JSON body used by every error branch. -/
def messageJson (m : String) : Json :=
  .obj [("message", .str m)]

/-- The `POST` handler of `/api/analyze-rubric`, from the credential
check to the returned response.  `apiKey` is the credential read from
the process environment (`none` when absent); `body` is the parsed
request body; `upstream` is the observed provider behavior;
`formspreeOk` is whether the fire-and-forget logging request settles
successfully; `now` is the timestamp string.  Returns the HTTP
response, the ordered outbound calls, and the console log entries. -/
def POST (apiKey : Option String) (body : RequestBody) (upstream : Upstream)
    (formspreeOk : Bool) (now : String) :
    ApiResponse × List OutboundCall × List String :=
  if strFalsy apiKey then
    (⟨500, messageJson "Server configuration error: API key not found"⟩, [],
     ["CLAUDE_API_KEY is not defined"])
  else
    match body with
    | .malformed errMsg =>
      (⟨500, messageJson errMsg⟩, [], ["Error in analyze-rubric API: " ++ errMsg])
    | .fields promptField criterionField =>
      if strFalsy promptField || strFalsy criterionField then
        (⟨400, messageJson "Both prompt and criterion are required"⟩, [], [])
      else
        let prompt := promptField.getD ""
        let criterion := criterionField.getD ""
        let call : AnthropicCall :=
          ⟨apiKey.getD "", "claude-3-5-sonnet-20241022", 1024,
           RUBRIC_INSTRUCTIONS, userContent prompt criterion⟩
        match upstream with
        | .fetchError msg =>
          (⟨500, messageJson msg⟩, [.anthropic call],
           ["Error in analyze-rubric API: " ++ msg])
        | .httpError status errorText =>
          (⟨status, messageJson ("Error from Claude API: " ++ errorText)⟩,
           [.anthropic call],
           ["Claude API error status", "Claude API error text: " ++ errorText])
        | .jsonError msg =>
          (⟨500, messageJson msg⟩, [.anthropic call],
           ["Error in analyze-rubric API: " ++ msg])
        | .success content =>
          let formatError :=
            (ApiResponse.mk 500 (messageJson "Invalid response format from Claude API"),
             [OutboundCall.anthropic call],
             ["Unexpected Claude API response format"])
          match content with
          | none => formatError
          | some blocks =>
            match blocks with
            | [] => formatError
            | block :: _ =>
              match block.text with
              | none => formatError
              | some t =>
                if t = "" then formatError
                else
                  let cleanedText := jsTrim t
                  match jsonParse cleanedText with
                  | none =>
                    (⟨500, messageJson "Error parsing Claude response"⟩,
                     [.anthropic call],
                     ["Cleaned text for parsing: " ++ cleanedText,
                      "Error parsing Claude response",
                      "Failed to parse text: " ++ t])
                  | some evaluation =>
                    let record : FormspreeRecord :=
                      ⟨prompt, criterion,
                       evaluation.getField "isValid",
                       evaluation.getField "promptRequirement",
                       evaluation.getField "errors", now⟩
                    (⟨200, evaluation⟩,
                     [.anthropic call, .formspree record],
                     ["Cleaned text for parsing: " ++ cleanedText] ++
                       (if formspreeOk then [] else ["Error sending to Formspree"]))


/-! ### Auxiliary lemmas -/

theorem mapWithIndex_length {α β : Type} (f : Nat → α → β) :
    ∀ (k : Nat) (l : List α), (mapWithIndex f k l).length = l.length
  | _, [] => rfl
  | k, _ :: as => congrArg Nat.succ (mapWithIndex_length f (k + 1) as)

theorem mapWithIndex_get {α β : Type} (f : Nat → α → β) :
    ∀ (k : Nat) (l : List α) (i : Nat) (h : i < l.length)
      (h2 : i < (mapWithIndex f k l).length),
      (mapWithIndex f k l).get ⟨i, h2⟩ = f (k + i) (l.get ⟨i, h⟩) := by
  intro k l
  induction l generalizing k with
  | nil => intro i h; exact absurd h (Nat.not_lt_zero i)
  | cons a as ih =>
    intro i h h2
    cases i with
    | zero => rfl
    | succ j =>
      have hj : j < as.length := Nat.lt_of_succ_lt_succ h
      have hj2 : j < (mapWithIndex f (k + 1) as).length := by
        rw [mapWithIndex_length]; exact hj
      have := ih (k + 1) j hj hj2
      have hk : k + (j + 1) = k + 1 + j := by omega
      rw [hk]
      exact this

theorem splitOnChar_ne_nil (sep : Char) : ∀ (l : List Char), splitOnChar sep l ≠ []
  | [] => fun h => List.noConfusion h
  | c :: rest => by
    have h := splitOnChar_ne_nil sep rest
    unfold splitOnChar
    by_cases hc : c = sep
    · simp only [hc, if_true]
      exact fun hh => List.noConfusion hh
    · simp only [hc, if_false]
      cases hr : splitOnChar sep rest with
      | nil => exact absurd hr h
      | cons hpart t => exact fun hh => List.noConfusion hh

theorem mem_of_mem_splitOnChar (sep : Char) :
    ∀ (l : List Char) (c : Char), c ∈ l → c ≠ sep →
      ∃ part ∈ splitOnChar sep l, c ∈ part := by
  intro l
  induction l with
  | nil => intro c hc; exact absurd hc (List.not_mem_nil c)
  | cons x rest ih =>
    intro c hc hcsep
    unfold splitOnChar
    rcases List.mem_cons.mp hc with hx | hrest
    · subst hx
      have hx : ¬(c = sep) := hcsep
      simp only [hx, if_false]
      cases hr : splitOnChar sep rest with
      | nil => exact absurd hr (splitOnChar_ne_nil sep rest)
      | cons hpart t =>
        exact ⟨c :: hpart, List.mem_cons_self _ _, List.mem_cons_self _ _⟩
    · obtain ⟨part, hpartmem, hcpart⟩ := ih c hrest hcsep
      by_cases hx : x = sep
      · simp only [hx, if_true]
        exact ⟨part, List.mem_cons_of_mem _ hpartmem, hcpart⟩
      · simp only [hx, if_false]
        cases hr : splitOnChar sep rest with
        | nil => exact absurd hr (splitOnChar_ne_nil sep rest)
        | cons hpart t =>
          rw [hr] at hpartmem
          rcases List.mem_cons.mp hpartmem with hph | hpt
          · subst hph
            exact ⟨x :: part, List.mem_cons_self _ _, List.mem_cons_of_mem _ hcpart⟩
          · exact ⟨part, List.mem_cons_of_mem _ hpt, hcpart⟩

theorem mem_of_mem_dropWhile {α : Type} {p : α → Bool} {l : List α} {x : α}
    (h : x ∈ l.dropWhile p) : x ∈ l := by
  have hsplit := List.takeWhile_append_dropWhile p l
  rw [← hsplit]
  exact List.mem_append_right _ h

theorem forall_dropWhile_iff {α : Type} (p : α → Bool) (l : List α) :
    (∀ x ∈ l.dropWhile p, p x) ↔ ∀ x ∈ l, p x := by
  constructor
  · intro h x hx
    have hsplit := List.takeWhile_append_dropWhile p l
    rw [← hsplit] at hx
    rcases List.mem_append.mp hx with htake | hdrop
    · exact List.mem_takeWhile_imp htake
    · exact h x hdrop
  · intro h x hx
    exact h x (mem_of_mem_dropWhile hx)

theorem trimChars_eq_nil_iff (l : List Char) :
    trimChars l = [] ↔ ∀ c ∈ l, jsWhitespace c := by
  unfold trimChars
  rw [List.reverse_eq_nil_iff, List.dropWhile_eq_nil_iff]
  constructor
  · intro h c hc
    have h2 : ∀ x ∈ l.dropWhile jsWhitespace, jsWhitespace x := fun x hx =>
      h x (List.mem_reverse.mpr hx)
    exact (forall_dropWhile_iff jsWhitespace l).mp h2 c hc
  · intro h c hc
    exact h c (mem_of_mem_dropWhile (List.mem_reverse.mp hc))

theorem trimChars_mem_of_not_ws {l : List Char} {c : Char}
    (hc : c ∈ l) (hw : jsWhitespace c = false) : trimChars l ≠ [] := by
  intro hnil
  have := (trimChars_eq_nil_iff l).mp hnil c hc
  rw [hw] at this
  exact Bool.false_ne_true this

theorem parseCriteria_ne_nil {criteria : String}
    (h : jsTrim criteria ≠ "") : parseCriteria criteria ≠ [] := by
  have hne : trimChars criteria.data ≠ [] := by
    intro hnil
    exact h (congrArg String.mk hnil)
  obtain ⟨c, hc, hcw⟩ : ∃ c ∈ criteria.data, jsWhitespace c = false := by
    by_contra hall
    push_neg at hall
    exact hne ((trimChars_eq_nil_iff criteria.data).mpr fun c hcmem => by
      have := hall c hcmem
      exact Bool.not_eq_false (jsWhitespace c) |>.mp this)
  have hcnl : c ≠ '\n' := by
    intro hceq
    subst hceq
    simp [jsWhitespace, Char.isWhitespace] at hcw
  obtain ⟨part, hpartmem, hcpart⟩ := mem_of_mem_splitOnChar '\n' criteria.data c hc hcnl
  have htrimmed : (jsTrim ⟨part⟩).length > 0 := by
    have : trimChars part ≠ [] := trimChars_mem_of_not_ws hcpart hcw
    have hlen : (jsTrim ⟨part⟩).data = trimChars part := rfl
    show (jsTrim ⟨part⟩).data.length > 0
    rw [hlen]
    exact List.length_pos.mpr this
  have hmem : jsTrim ⟨part⟩ ∈ (jsSplitLines criteria).map jsTrim := by
    apply List.mem_map_of_mem
    exact List.mem_map_of_mem _ hpartmem
  intro hnil
  have := List.filter_eq_nil_iff.mp hnil (jsTrim ⟨part⟩) hmem
  simp only [decide_eq_true_eq] at this
  exact this htrimmed


/-! ### Behavior of `analyzeCriteria` on each validation branch -/

theorem analyzeCriteria_invalid_eq (s : ClientState) (fetch : Nat → FetchOutcome)
    (h : jsTrim s.prompt = "" ∨ jsTrim s.criteria = "") :
    analyzeCriteria s fetch =
      ({ s with error := "Please provide both the original prompt and the rubric criteria" },
       []) := by
  unfold analyzeCriteria
  rcases h with h | h <;> simp [h]

theorem analyzeCriteria_noCriteria_eq (s : ClientState) (fetch : Nat → FetchOutcome)
    (h1 : jsTrim s.prompt ≠ "") (h2 : jsTrim s.criteria ≠ "")
    (h3 : parseCriteria s.criteria = []) :
    analyzeCriteria s fetch = ({ s with error := "No valid criteria found" }, []) := by
  unfold analyzeCriteria
  simp [h1, h2, h3]

theorem analyzeCriteria_valid_eq (s : ClientState) (fetch : Nat → FetchOutcome)
    (h1 : jsTrim s.prompt ≠ "") (h2 : jsTrim s.criteria ≠ "") :
    analyzeCriteria s fetch =
      (({ s with
            loading := false
            error := ""
            analyses := (runLoop (jsTrim s.prompt) fetch 0 (parseCriteria s.criteria)
              (initialAnalyses (parseCriteria s.criteria))).1 } : ClientState),
       (runLoop (jsTrim s.prompt) fetch 0 (parseCriteria s.criteria)
         (initialAnalyses (parseCriteria s.criteria))).2) := by
  have h3 : ¬(parseCriteria s.criteria).length = 0 := by
    intro hlen
    exact parseCriteria_ne_nil h2 (List.length_eq_zero.mp hlen)
  unfold analyzeCriteria
  simp [h1, h2, h3]

/-! ### Claim theorems -/

/-- C9: whenever the trimmed criteria block is non-empty, splitting it by
line breaks, trimming each line and dropping blanks yields at least one
item, so the second validation branch of `analyzeCriteria` (the
`No valid criteria found` message) is unreachable once the first check
on `criteria.trim()` has passed. -/
theorem noValidCriteria_branch_unreachable (criteria : String)
    (h : jsTrim criteria ≠ "") : (parseCriteria criteria).length ≠ 0 := by
  intro hlen
  exact parseCriteria_ne_nil h (List.length_eq_zero.mp hlen)

theorem noValidCriteria_branch_unreachable_witness :
    jsTrim "a" ≠ "" ∧ (parseCriteria "a").length ≠ 0 :=
  ⟨by decide, noValidCriteria_branch_unreachable "a" (by decide)⟩

/-- C10: a call to `analyzeCriteria` that fails input validation (empty
trimmed prompt or criteria) leaves the record list and every other state
cell untouched and issues no network call: the result is exactly the
input state with only the error banner replaced. -/
theorem validationFailure_frame (s : ClientState) (fetch : Nat → FetchOutcome)
    (h : jsTrim s.prompt = "" ∨ jsTrim s.criteria = "") :
    analyzeCriteria s fetch =
      ({ s with error := "Please provide both the original prompt and the rubric criteria" },
       []) :=
  analyzeCriteria_invalid_eq s fetch h

/-- A concrete component state carrying records from a previous run
(one settled with a verdict, one still loading with an error), used to
instantiate the frame theorems at a concrete input. -/
def sampleAnalyses : List CriterionAnalysis :=
  [{ criterion := "a", result := some (.bool true), expanded := true,
     loading := false, error := none },
   { criterion := "b", result := none, expanded := false, loading := true,
     error := some "boom" }]

/-- A concrete state whose prompt is blank but which still holds the
records of a previous run. -/
def sampleState : ClientState :=
  { prompt := " ", criteria := "x", analyses := sampleAnalyses,
    loading := false, error := "" }

theorem validationFailure_frame_witness :
    (jsTrim sampleState.prompt = "" ∨ jsTrim sampleState.criteria = "") ∧
      analyzeCriteria sampleState (fun _ => .failure "net") =
        ({ sampleState with
            error := "Please provide both the original prompt and the rubric criteria" },
         []) :=
  ⟨Or.inl (by decide),
   validationFailure_frame sampleState (fun _ => .failure "net") (Or.inl (by decide))⟩

/-- C4: every call to `analyzeCriteria` whose trimmed prompt is empty,
whose trimmed criteria block is empty, or whose criteria block parses to
zero items, sets a non-empty error message, makes zero network calls and
produces zero criterion records (the record list is left as it was). -/
theorem invalidInput_noRecords_noCalls (s : ClientState)
    (fetch : Nat → FetchOutcome)
    (h : jsTrim s.prompt = "" ∨ jsTrim s.criteria = "" ∨
      parseCriteria s.criteria = []) :
    (analyzeCriteria s fetch).1.analyses = s.analyses ∧
    (analyzeCriteria s fetch).1.error ≠ "" ∧
    (analyzeCriteria s fetch).2 = [] := by
  by_cases h1 : jsTrim s.prompt = ""
  · rw [analyzeCriteria_invalid_eq s fetch (Or.inl h1)]
    refine ⟨rfl, ?_, rfl⟩
    show ("Please provide both the original prompt and the rubric criteria" : String) ≠ ""
    decide
  · by_cases h2 : jsTrim s.criteria = ""
    · rw [analyzeCriteria_invalid_eq s fetch (Or.inr h2)]
      refine ⟨rfl, ?_, rfl⟩
      show ("Please provide both the original prompt and the rubric criteria" : String) ≠ ""
      decide
    · have h3 : parseCriteria s.criteria = [] := by tauto
      rw [analyzeCriteria_noCriteria_eq s fetch h1 h2 h3]
      refine ⟨rfl, ?_, rfl⟩
      show ("No valid criteria found" : String) ≠ ""
      decide

theorem invalidInput_noRecords_noCalls_witness :
    (jsTrim sampleState.prompt = "" ∨ jsTrim sampleState.criteria = "" ∨
      parseCriteria sampleState.criteria = []) ∧
    (analyzeCriteria sampleState (fun _ => .failure "net")).1.analyses =
      sampleState.analyses ∧
    (analyzeCriteria sampleState (fun _ => .failure "net")).1.error ≠ "" ∧
    (analyzeCriteria sampleState (fun _ => .failure "net")).2 = [] :=
  ⟨Or.inl (by decide),
   invalidInput_noRecords_noCalls sampleState (fun _ => .failure "net")
     (Or.inl (by decide))⟩


theorem toggleExpanded_length (index : Nat) (l : List CriterionAnalysis) :
    (toggleExpanded index l).length = l.length := by
  unfold toggleExpanded
  rw [mapWithIndex_length]

theorem toggleExpanded_get (index : Nat) (l : List CriterionAnalysis)
    (j : Nat) (hj : j < l.length) (hj2 : j < (toggleExpanded index l).length) :
    (toggleExpanded index l).get ⟨j, hj2⟩ =
      if j = index then
        { l.get ⟨j, hj⟩ with expanded := !(l.get ⟨j, hj⟩).expanded }
      else l.get ⟨j, hj⟩ := by
  unfold toggleExpanded at hj2 ⊢
  rw [mapWithIndex_get _ 0 l j hj hj2]
  simp

theorem applyOutcome_length (i : Nat) (o : FetchOutcome)
    (l : List CriterionAnalysis) : (applyOutcome i o l).length = l.length := by
  unfold applyOutcome
  rw [mapWithIndex_length]

theorem applyOutcome_get (i : Nat) (o : FetchOutcome)
    (l : List CriterionAnalysis) (j : Nat) (hj : j < l.length)
    (hj2 : j < (applyOutcome i o l).length) :
    (applyOutcome i o l).get ⟨j, hj2⟩ =
      if j = i then
        match o with
        | .success r => { l.get ⟨j, hj⟩ with result := some r, loading := false }
        | .failure m => { l.get ⟨j, hj⟩ with error := some m, loading := false }
      else l.get ⟨j, hj⟩ := by
  unfold applyOutcome at hj2 ⊢
  rw [mapWithIndex_get _ 0 l j hj hj2]
  cases o <;> simp

theorem runLoop_calls_length (prompt : String) (fetch : Nat → FetchOutcome) :
    ∀ (k : Nat) (cl : List String) (st : List CriterionAnalysis),
      (runLoop prompt fetch k cl st).2.length = cl.length
  | _, [], _ => rfl
  | k, c :: rest, st => by
    show (⟨prompt, c⟩ ::
      (runLoop prompt fetch (k + 1) rest (applyOutcome k (fetch k) st)).2).length =
        rest.length + 1
    rw [List.length_cons, runLoop_calls_length prompt fetch (k + 1) rest _]

/-- C5: `toggleExpanded index` flips `expanded` of exactly the record at
`index` (all its other fields and all other records are unchanged) and
is an involution: two consecutive toggles at the same index restore the
record list exactly, whatever the loading or error state of any
record. -/
theorem toggleExpanded_exact_and_involutive (analyses : List CriterionAnalysis)
    (index : Nat) (hidx : index < analyses.length) :
    (∀ j (hj : j < analyses.length)
        (hj2 : j < (toggleExpanded index analyses).length), j ≠ index →
        (toggleExpanded index analyses).get ⟨j, hj2⟩ = analyses.get ⟨j, hj⟩) ∧
    (∀ hi2 : index < (toggleExpanded index analyses).length,
        (toggleExpanded index analyses).get ⟨index, hi2⟩ =
          { analyses.get ⟨index, hidx⟩ with
              expanded := !(analyses.get ⟨index, hidx⟩).expanded }) ∧
    toggleExpanded index (toggleExpanded index analyses) = analyses := by
  refine ⟨?_, ?_, ?_⟩
  · intro j hj hj2 hne
    rw [toggleExpanded_get index analyses j hj hj2]
    simp [hne]
  · intro hi2
    rw [toggleExpanded_get index analyses index hidx hi2]
    simp
  · apply List.ext_get
    · rw [toggleExpanded_length, toggleExpanded_length]
    · intro n h1 h2
      have hn1 : n < (toggleExpanded index analyses).length := by
        rw [toggleExpanded_length]; exact h2
      rw [toggleExpanded_get index (toggleExpanded index analyses) n hn1 h1,
        toggleExpanded_get index analyses n h2 hn1]
      by_cases hni : n = index
      · simp [hni]
      · simp [hni]

theorem toggleExpanded_exact_and_involutive_witness :
    0 < sampleAnalyses.length ∧
      toggleExpanded 0 (toggleExpanded 0 sampleAnalyses) = sampleAnalyses :=
  ⟨by decide,
   (toggleExpanded_exact_and_involutive sampleAnalyses 0 (by decide)).2.2⟩

/-- C1: on a call to `analyzeCriteria` with a non-empty trimmed prompt
and a non-blank criteria block, the submitted lines yield `n ≥ 1` items
and exactly `n` records are created, in submission order (duplicates
kept), each initialized with `loading = true`, `result = null` (verdict
absent) and `expanded = false`; the run then dispatches starting from
exactly that record list. -/
theorem analyze_creates_one_record_per_item (s : ClientState)
    (fetch : Nat → FetchOutcome)
    (h1 : jsTrim s.prompt ≠ "") (h2 : jsTrim s.criteria ≠ "") :
    1 ≤ (parseCriteria s.criteria).length ∧
    (initialAnalyses (parseCriteria s.criteria)).length =
      (parseCriteria s.criteria).length ∧
    (∀ i (hi : i < (parseCriteria s.criteria).length)
        (hi2 : i < (initialAnalyses (parseCriteria s.criteria)).length),
        (initialAnalyses (parseCriteria s.criteria)).get ⟨i, hi2⟩ =
          { criterion := (parseCriteria s.criteria).get ⟨i, hi⟩
            result := none
            expanded := false
            loading := true
            error := none }) ∧
    analyzeCriteria s fetch =
      (({ s with
            loading := false
            error := ""
            analyses := (runLoop (jsTrim s.prompt) fetch 0 (parseCriteria s.criteria)
              (initialAnalyses (parseCriteria s.criteria))).1 } : ClientState),
       (runLoop (jsTrim s.prompt) fetch 0 (parseCriteria s.criteria)
         (initialAnalyses (parseCriteria s.criteria))).2) := by
  refine ⟨?_, ?_, ?_, analyzeCriteria_valid_eq s fetch h1 h2⟩
  · exact Nat.one_le_iff_ne_zero.mpr
      (fun h0 => parseCriteria_ne_nil h2 (List.length_eq_zero.mp h0))
  · simp [initialAnalyses]
  · intro i hi hi2
    simp [initialAnalyses, List.get_eq_getElem, List.getElem_map]

/-- A concrete valid component state: non-blank prompt, two criteria
lines. -/
def sampleValidState : ClientState :=
  { prompt := "p", criteria := "one\ntwo", analyses := [], loading := false,
    error := "" }

theorem analyze_creates_one_record_per_item_witness :
    jsTrim sampleValidState.prompt ≠ "" ∧ jsTrim sampleValidState.criteria ≠ "" ∧
      1 ≤ (parseCriteria sampleValidState.criteria).length :=
  ⟨by decide, by decide,
   (analyze_creates_one_record_per_item sampleValidState
     (fun _ => .failure "net") (by decide) (by decide)).1⟩

/-- C2: when the request for criterion `i` fails with message `m`, the
state update touches only record `i` (its `error` is set to `m`, its
`loading` cleared, all other fields kept), every record at any other
index keeps exactly the state it had, and the loop nonetheless
continues with index `i + 1`; the dispatch issues exactly one request
per criterion, so all `n` indices are always processed and the run
never aborts early. -/
theorem failure_isolated_run_continues (analyses : List CriterionAnalysis)
    (i : Nat) (m : String) (hi : i < analyses.length) :
    (∀ j (hj : j < analyses.length)
        (hj2 : j < (applyOutcome i (.failure m) analyses).length), j ≠ i →
        (applyOutcome i (.failure m) analyses).get ⟨j, hj2⟩ =
          analyses.get ⟨j, hj⟩) ∧
    (∀ hi2 : i < (applyOutcome i (.failure m) analyses).length,
        (applyOutcome i (.failure m) analyses).get ⟨i, hi2⟩ =
          { analyses.get ⟨i, hi⟩ with
              error := some m
              loading := false }) ∧
    (∀ (prompt : String) (fetch : Nat → FetchOutcome) (c : String)
        (rest : List String), fetch i = .failure m →
        runLoop prompt fetch i (c :: rest) analyses =
          ((runLoop prompt fetch (i + 1) rest
              (applyOutcome i (.failure m) analyses)).1,
           ⟨prompt, c⟩ ::
             (runLoop prompt fetch (i + 1) rest
               (applyOutcome i (.failure m) analyses)).2)) ∧
    (∀ (prompt : String) (fetch : Nat → FetchOutcome) (k : Nat)
        (cl : List String) (st : List CriterionAnalysis),
        (runLoop prompt fetch k cl st).2.length = cl.length) := by
  refine ⟨?_, ?_, ?_, fun prompt fetch => runLoop_calls_length prompt fetch⟩
  · intro j hj hj2 hne
    rw [applyOutcome_get i (.failure m) analyses j hj hj2]
    simp [hne]
  · intro hi2
    rw [applyOutcome_get i (.failure m) analyses i hi hi2]
    simp
  · intro prompt fetch c rest hf
    show (let stepped := applyOutcome i (fetch i) analyses
          let r := runLoop prompt fetch (i + 1) rest stepped
          (r.1, ⟨prompt, c⟩ :: r.2)) = _
    rw [hf]

theorem failure_isolated_run_continues_witness :
    1 < (initialAnalyses ["a", "b"]).length ∧
      (runLoop "p" (fun _ => FetchOutcome.failure "m") 0 ["a", "b"]
        (initialAnalyses ["a", "b"])).2.length = 2 :=
  ⟨by decide, by
    have h := (failure_isolated_run_continues (initialAnalyses ["a", "b"]) 1 "m"
      (by decide)).2.2.2
    simpa using h "p" (fun _ => FetchOutcome.failure "m") 0 ["a", "b"]
      (initialAnalyses ["a", "b"])⟩


/-- Modelled from the spec: an error item of the Verdict wire contract —
an object with exactly the fields `rule` (string) and `explanation`
(string). -/
def errorItemShape (j : Json) : Bool :=
  match j with
  | .obj fields =>
    (fields.map Prod.fst).all (fun k => k = "rule" || k = "explanation") &&
    (match j.getField "rule" with
     | some (.str _) => true
     | _ => false) &&
    (match j.getField "explanation" with
     | some (.str _) => true
     | _ => false)
  | _ => false

/-- Modelled from the spec: the Verdict wire contract — a JSON object
with exactly the fields `isValid` (boolean), `promptRequirement`
(string), `errors` (array of error items), `suggestion` (string) and
`reasoning` (string). -/
def verdictWireShape (j : Json) : Bool :=
  match j with
  | .obj fields =>
    (fields.map Prod.fst).all (fun k =>
      k = "isValid" || k = "promptRequirement" || k = "errors" ||
      k = "suggestion" || k = "reasoning") &&
    (match j.getField "isValid" with
     | some (.bool _) => true
     | _ => false) &&
    (match j.getField "promptRequirement" with
     | some (.str _) => true
     | _ => false) &&
    (match j.getField "errors" with
     | some (.arr elems) => elems.all errorItemShape
     | _ => false) &&
    (match j.getField "suggestion" with
     | some (.str _) => true
     | _ => false) &&
    (match j.getField "reasoning" with
     | some (.str _) => true
     | _ => false)
  | _ => false

/-- C3 counterexample: with the credential present, non-empty inputs and
a provider success whose text payload is the JSON text of the empty
object, the payload parses as JSON, yet the 200 response body is that
empty object, which does not match the Verdict wire shape: the route
performs no shape validation on the parsed payload. -/
theorem post_success_body_not_verdict_shape :
    jsonParse (jsTrim "\x7b\x7d") = some (Json.obj []) ∧
    (POST (some "key") (.fields (some "p") (some "c"))
        (.success (some [⟨some "\x7b\x7d"⟩])) true "t").1 =
      ⟨200, Json.obj []⟩ ∧
    verdictWireShape (Json.obj []) = false :=
  ⟨rfl, rfl, rfl⟩

/-- C3 amended: with the credential present, non-empty inputs and a
provider success carrying a non-empty text payload whose trimmed form
parses as JSON, the route returns 200 whose body is exactly the parsed
JSON value — unvalidated, so it matches the Verdict wire shape only when
the provider payload already does. -/
theorem post_success_returns_parsed_payload (key p c t : String)
    (rest : List AnthropicBlock) (v : Json) (fsOk : Bool) (now : String)
    (hk : key ≠ "") (hp : p ≠ "") (hc : c ≠ "") (ht : t ≠ "")
    (hparse : jsonParse (jsTrim t) = some v) :
    (POST (some key) (.fields (some p) (some c))
        (.success (some (⟨some t⟩ :: rest))) fsOk now).1 = ⟨200, v⟩ := by
  unfold POST
  simp [strFalsy, hk, hp, hc, ht, hparse]

theorem post_success_returns_parsed_payload_witness :
    ("k" : String) ≠ "" ∧ jsonParse (jsTrim "true") = some (Json.bool true) ∧
    (POST (some "k") (.fields (some "p") (some "c"))
        (.success (some [⟨some "true"⟩])) true "n").1 = ⟨200, Json.bool true⟩ :=
  ⟨by decide, rfl,
   post_success_returns_parsed_payload "k" "p" "c" "true" [] (Json.bool true)
     true "n" (by decide) (by decide) (by decide) (by decide) rfl⟩

/-- C6: when the external-API credential is absent from the process
environment, the route returns status 500 with the fixed generic
configuration-error body (a constant that cannot contain the credential
value), makes no outbound call at all, and decides this before the
request body or any provider behavior is examined: the result is the
same whatever the request and upstream would have been. -/
theorem post_missing_credential (body : RequestBody) (upstream : Upstream)
    (fsOk : Bool) (now : String) :
    POST none body upstream fsOk now =
      (⟨500, messageJson "Server configuration error: API key not found"⟩, [],
       ["CLAUDE_API_KEY is not defined"]) :=
  rfl

/-- C7 (the code evaluated at the failing interleaving): the component
keeps no run or generation token, so the pending `setAnalyses` updater
of a superseded run — `applyOutcome` at the old run's index — applies
to whatever analyses list is current when it resolves.  Concretely, a
stale success resolving at old index 0 after a new two-item run has
just initialized mutates the new run's record 0: its `loading` flips
to false and a verdict appears, instead of the stale resolution being
discarded. -/
theorem stale_resolution_mutates_current_run :
    (applyOutcome 0 (.success (Json.bool true))
        (initialAnalyses ["x", "y"])).map
        (fun a => (a.loading, a.result.isSome)) =
      [(false, true), (true, false)] ∧
    (initialAnalyses ["x", "y"]).map
      (fun a => (a.loading, a.result.isSome)) =
      [(true, false), (true, false)] :=
  ⟨rfl, rfl⟩

/-- C8: for every environment, request and upstream behavior, the
response returned to the caller and the outbound calls made are
identical whether the fire-and-forget logging submission succeeds or
fails: the logging outcome can influence only the local console log,
never the returned response or its status. -/
theorem post_response_independent_of_logging (apiKey : Option String)
    (body : RequestBody) (upstream : Upstream) (now : String) (o1 o2 : Bool) :
    (POST apiKey body upstream o1 now).1 = (POST apiKey body upstream o2 now).1 ∧
    (POST apiKey body upstream o1 now).2.1 =
      (POST apiKey body upstream o2 now).2.1 := by
  refine ⟨?_, ?_⟩ <;>
  · unfold POST
    by_cases hk : strFalsy apiKey = true
    · simp [hk]
    · rw [Bool.not_eq_true] at hk
      cases body with
      | malformed msg => simp [hk]
      | fields pf cf =>
        by_cases hfc : (strFalsy pf || strFalsy cf) = true
        · simp [hk, hfc]
        · rw [Bool.not_eq_true] at hfc
          cases upstream with
          | fetchError msg => simp [hk, hfc]
          | httpError st et => simp [hk, hfc]
          | jsonError msg => simp [hk, hfc]
          | success content =>
            rcases content with _ | (_ | ⟨⟨_ | t⟩, rest⟩)
            · simp [hk, hfc]
            · simp [hk, hfc]
            · simp [hk, hfc]
            · by_cases htt : t = ""
              · simp [hk, hfc, htt]
              · cases hjp : jsonParse (jsTrim t) with
                | none => simp [hk, hfc, htt, hjp]
                | some ev => simp [hk, hfc, htt, hjp]

end RubricGrader
